import Mathlib

/-!
Shallow embedding of the LagrangeDemo gravitational n-body simulator
(src/LagrangeDemo.cpp) and proofs about it.

Modelling conventions:
* C doubles and floats are modelled as real numbers (the float/double
  narrowing casts of the source are dropped); glm 3-vectors are triples
  of reals.
* In-place mutation is modelled by explicit state passing: the body
  registry is a list, the loops of the source are folds over index
  ranges that rebuild the list with `List.set`.
* The `CelestialBody*` anchor pointer is modelled by reading the
  pointer graph out as a value tree (the spec guarantees the anchor
  graph is a forest), and registry pointers by indices.
* Out-of-range registry reads (impossible in the source, where indices
  are always below `num_celestial_bodies`) are totalized with a default
  body.
-/

noncomputable section

open scoped Classical

/-- Three-component vector, modelling glm::dvec3 / glm::vec3. -/
abbrev Vec3 : Type := ℝ × ℝ × ℝ

/-- glm::length, the euclidean norm. -/
def vlen (v : Vec3) : ℝ := Real.sqrt (v.1 * v.1 + v.2.1 * v.2.1 + v.2.2 * v.2.2)

/-- glm::normalize, v / |v|. -/
def vnormalize (v : Vec3) : Vec3 := (1 / vlen v) • v

/-- glm::cross. -/
def vcross (a b : Vec3) : Vec3 :=
  (a.2.1 * b.2.2 - a.2.2 * b.2.1, a.2.2 * b.1 - a.1 * b.2.2, a.1 * b.2.1 - a.2.1 * b.1)

/-- Source constant MAX_LINE_PATH_SEGMENTS (LagrangeDemo.cpp line 63). -/
def MAX_LINE_PATH_SEGMENTS : ℕ := 1000

/-- Source constant LINE_WIDTH (line 22), the width divisor of trail segments. -/
def LINE_WIDTH : ℝ := 500

/-- Source constant MIN_ZOOM (line 23). -/
def MIN_ZOOM : ℝ := 800

/-- Source constant NUM_ZOOM_LEVELS (line 24). -/
def NUM_ZOOM_LEVELS : ℤ := 20

/-- Source constant FOCUSED_CAMERA_DIST (line 21). -/
def FOCUSED_CAMERA_DIST : ℝ := 25

/-- One stored trail segment: the two ribbon vertices of struct Line (line 56). -/
structure Line where
  p0 : Vec3
  p1 : Vec3

/-- The all-zero segment (the buffer of create_line_path is calloc-ed). -/
def zeroLine : Line := ⟨(0, 0, 0), (0, 0, 0)⟩

/-- struct LinePath (line 62): a circular buffer of segments.  The owner back
pointer is omitted; the array of MAX_LINE_PATH_SEGMENTS lines is modelled as a
function from slot numbers, where only slots below MAX_LINE_PATH_SEGMENTS are
ever read. -/
structure LinePath where
  lines : ℕ → Line
  path_start : ℕ
  num_segments : ℕ

/-- create_line_path (line 201): zeroed buffer, start and count zero. -/
def create_line_path : LinePath := ⟨fun _ => zeroLine, 0, 0⟩

/-- The segment computed by append_to_line_path (lines 226-234) from the new
position, the previous stored endpoints and the width. -/
def appendedLine (pos o0 o1 : Vec3) (width : ℝ) : Line :=
  let orig : Vec3 := ((1 : ℝ) / 2) • (o0 - o1) + o1
  let dir : Vec3 := pos - orig
  let perp : Vec3 := vcross (vnormalize dir) (0, 1, 0)
  ⟨pos + (((1 : ℝ) / 2) * width) • perp, pos - (((1 : ℝ) / 2) * width) • perp⟩

/-- The circular-buffer insertion step of append_to_line_path
(lines 224, 236-242): write at (start + count) mod capacity, bump the count,
and on overflow clamp the count and advance the start. -/
def bufferInsert (lp : LinePath) (l : Line) : LinePath :=
  let index := (lp.path_start + lp.num_segments) % MAX_LINE_PATH_SEGMENTS
  let lines := Function.update lp.lines index l
  let n := lp.num_segments + 1
  if MAX_LINE_PATH_SEGMENTS < n then
    ⟨lines, (lp.path_start + 1) % MAX_LINE_PATH_SEGMENTS, MAX_LINE_PATH_SEGMENTS⟩
  else
    ⟨lines, lp.path_start, n⟩

/-- append_to_line_path (lines 223-243). -/
def append_to_line_path (lp : LinePath) (pos o0 o1 : Vec3) (width : ℝ) : LinePath :=
  bufferInsert lp (appendedLine pos o0 o1 width)

/-- The linearization of the circular buffer performed by
render_celestial_body (lines 404-407): memcpy of the elements
[start, count) followed by memcpy of the elements [0, start). -/
def linearize (lp : LinePath) : List Line :=
  (List.range (lp.num_segments - lp.path_start)).map (fun k => lp.lines (lp.path_start + k))
    ++ (List.range lp.path_start).map (fun k => lp.lines k)

/-- enum RenderingMode (line 43). -/
inductive RenderingMode where
  | RENDER_TO_SCALE
  | RENDER_MINIFIED
deriving DecidableEq

export RenderingMode (RENDER_TO_SCALE RENDER_MINIFIED)

/-- struct CelestialBody (line 70).  The anchor pointer is modelled as an
optional nested body value (the pointer graph is a forest, read out as a
tree); `size` plays the role the spec calls radius. -/
inductive CBody where
  | mk (position : Vec3) (velocity : Vec3) (mass : ℝ) (size : ℝ) (color : Vec3)
      (path_taken : LinePath) (minified_dist_scale : ℝ) (minified_size_scale : ℝ)
      (anchor : Option CBody) : CBody

def CBody.position : CBody → Vec3
  | .mk p _ _ _ _ _ _ _ _ => p

def CBody.velocity : CBody → Vec3
  | .mk _ v _ _ _ _ _ _ _ => v

def CBody.mass : CBody → ℝ
  | .mk _ _ m _ _ _ _ _ _ => m

def CBody.size : CBody → ℝ
  | .mk _ _ _ s _ _ _ _ _ => s

def CBody.color : CBody → Vec3
  | .mk _ _ _ _ c _ _ _ _ => c

def CBody.path_taken : CBody → LinePath
  | .mk _ _ _ _ _ pt _ _ _ => pt

def CBody.minified_dist_scale : CBody → ℝ
  | .mk _ _ _ _ _ _ ds _ _ => ds

def CBody.minified_size_scale : CBody → ℝ
  | .mk _ _ _ _ _ _ _ ss _ => ss

def CBody.anchor : CBody → Option CBody
  | .mk _ _ _ _ _ _ _ _ a => a

/-- Velocity overwrite, modelling the in-place store c_i->velocity = ... . -/
def CBody.withVelocity : CBody → Vec3 → CBody
  | .mk p _ m s c pt ds ss a, v => .mk p v m s c pt ds ss a

/-- Position overwrite, modelling the in-place store c_i->position = ... . -/
def CBody.withPosition : CBody → Vec3 → CBody
  | .mk _ v m s c pt ds ss a, p => .mk p v m s c pt ds ss a

/-- Trail reset of the event callbacks (num_segments = 0; path_start = 0). -/
def CBody.resetPath : CBody → CBody
  | .mk p v m s c pt ds ss a => .mk p v m s c ⟨pt.lines, 0, 0⟩ ds ss a

instance : Inhabited CBody :=
  ⟨.mk (0, 0, 0) (0, 0, 0) 0 0 (0, 0, 0) create_line_path 0 0 none⟩

/-- Registry lookup global_state.celestial_bodies[i], totalized with the
default body for the out-of-range reads that the source never performs. -/
def getBody (bs : List CBody) (i : ℕ) : CBody := bs.getD i default

/-- struct GlobalState (line 86).  num_celestial_bodies is the list length;
camera_target keeps the C int convention where -1 means the free camera. -/
structure GlobalState where
  rendering_mode : RenderingMode
  celestial_bodies : List CBody
  camera_target : ℤ
  camera_pos : Vec3
  focused_camera_distance : ℝ
  zoom_level : ℤ
  light_emitter : Bool
  enable_orbit_rendering : Bool

/-- The locals index and index_bef of update_line_path (lines 246-247): the
slot one before the insertion point, wrapping around. -/
def seedIndex (lp : LinePath) : ℕ :=
  let index := (lp.path_start + lp.num_segments) % MAX_LINE_PATH_SEGMENTS
  if index = 0 then MAX_LINE_PATH_SEGMENTS - 1 else index - 1

/-- The locals camera_target_pos and width of update_line_path
(lines 249-251): the distance from the camera to the focused body (or to
the origin for the free camera), divided by LINE_WIDTH. -/
def pathWidth (gs : GlobalState) : ℝ :=
  let camera_target_pos : Vec3 :=
    if gs.camera_target = -1 then (0, 0, 0)
    else (getBody gs.celestial_bodies gs.camera_target.toNat).position
  vlen (gs.camera_pos - camera_target_pos) / LINE_WIDTH

/-- update_line_path (lines 245-264): derive the width from the camera
distance, seed the slot before the insertion point when the trail is empty,
then append only when the new position is farther than twice the width from
the first stored endpoint of the previous segment. -/
def update_line_path (lp : LinePath) (gs : GlobalState) (pos : Vec3) : LinePath :=
  let index_bef := seedIndex lp
  let width := pathWidth gs
  let lp1 :=
    if lp.num_segments = 0 then
      ⟨Function.update lp.lines index_bef ⟨(-(width / 2), 0, 0), (width / 2, 0, 0)⟩,
        lp.path_start, lp.num_segments⟩
    else lp
  let o0 := (lp1.lines index_bef).p0
  let o1 := (lp1.lines index_bef).p1
  if width * 2 < |vlen (pos - o0)| then append_to_line_path lp1 pos o0 o1 width else lp1

/-- The render-space position computed by render_celestial_body
(lines 346-359 fix the scales per mode, lines 385-391 compose the
position): identity in to-scale mode, anchor-relative single-level
composition in minified mode. -/
def renderedPosition (mode : RenderingMode) (c : CBody) : Vec3 :=
  let scale_dist : ℝ :=
    match mode with
    | RENDER_MINIFIED => c.minified_dist_scale
    | RENDER_TO_SCALE => 1
  let anchor : Option CBody :=
    match mode with
    | RENDER_MINIFIED => c.anchor
    | RENDER_TO_SCALE => none
  let anchor_scale_dist : ℝ :=
    match mode with
    | RENDER_MINIFIED =>
      match c.anchor with
      | some a => a.minified_dist_scale
      | none => 1
    | RENDER_TO_SCALE => 1
  match anchor with
  | some a => anchor_scale_dist • a.position + scale_dist • (c.position - a.position)
  | none => scale_dist • c.position

/-- The render-space scale applied to the body mesh by render_celestial_body
(lines 346-359 and 370): the body size, multiplied by the minified size scale
in minified mode. -/
def renderScale (mode : RenderingMode) (c : CBody) : ℝ :=
  let scale_size : ℝ :=
    match mode with
    | RENDER_MINIFIED => c.minified_size_scale
    | RENDER_TO_SCALE => 1
  c.size * scale_size

/-- Modelled from the spec (section 4.2): the fully recursive minified
render position that the spec asks for, recursing through the anchor chain
until a body with no anchor is reached.  The source has no such function;
this definition exists to be compared with `renderedPosition`. -/
def renderPositionRecursive : CBody → Vec3
  | .mk p _ _ _ _ _ ds _ none => ds • p
  | .mk p _ _ _ _ _ ds _ (some a) => renderPositionRecursive a + ds • (p - a.position)

/-- The velocity increment of one inner iteration of the gravity loop
(lines 652-657): normalize(p_j - p_i) scaled by G m_i m_j / (dist^2 + eps),
divided by m_i and multiplied by the step size. -/
def velKick (G dt : ℝ) (p_i : Vec3) (m_i : ℝ) (p_j : Vec3) (m_j : ℝ) : Vec3 :=
  let distance_i_j := vlen (p_i - p_j)
  let epsilon : ℝ := 1 / 1000000
  let gravity_force := G * m_i * m_j / (distance_i_j * distance_i_j + epsilon)
  (gravity_force * (1 / m_i) * dt) • vnormalize (p_j - p_i)

/-- The body of the inner j loop (lines 646-658): skip i = j, otherwise add
the gravity kick of body j to the velocity of body i. -/
def gravInner (G dt : ℝ) (i : ℕ) (acc : List CBody) (j : ℕ) : List CBody :=
  if i = j then acc
  else
    let c_i := getBody acc i
    let c_j := getBody acc j
    acc.set i (c_i.withVelocity
      (c_i.velocity + velKick G dt c_i.position c_i.mass c_j.position c_j.mass))

/-- The double velocity loop of one physics step (lines 645-659). -/
def velocityPhase (G dt : ℝ) (bs : List CBody) : List CBody :=
  (List.range bs.length).foldl
    (fun acc i => (List.range bs.length).foldl (gravInner G dt i) acc) bs

/-- The body of the position loop (lines 662-663): advance the position of
body i by its velocity times the step size. -/
def posInner (dt : ℝ) (acc : List CBody) (i : ℕ) : List CBody :=
  let c_i := getBody acc i
  acc.set i (c_i.withPosition (c_i.position + dt • c_i.velocity))

/-- The position loop of one physics step (lines 661-664). -/
def positionPhase (dt : ℝ) (bs : List CBody) : List CBody :=
  (List.range bs.length).foldl (posInner dt) bs

/-- One fixed physics step (lines 639-667): all velocity updates first, then
all position updates. -/
def physicsStepOnce (G dt : ℝ) (bs : List CBody) : List CBody :=
  positionPhase dt (velocityPhase G dt bs)

/-- The total velocity increment of body i over one step as the spec states
it: the sum over all j different from i of the gravity kick computed from
the pre-step snapshot. -/
def kickSum (G dt : ℝ) (bs : List CBody) (i : ℕ) : Vec3 :=
  ((List.range bs.length).map (fun j =>
    if i = j then 0
    else velKick G dt (getBody bs i).position (getBody bs i).mass
      (getBody bs j).position (getBody bs j).mass)).sum

/-- Source value physics_step = 1 / 300.0f (line 504). -/
def physics_step : ℝ := 1 / 300

/-- The per-frame clamp of the elapsed wall time (line 607):
frame times longer than 0.3s are clamped to 0.3s. -/
def clampFrameTime (ft : ℝ) : ℝ := if 0.3 < ft then 0.3 else ft

/-- The accumulator update of one frame (lines 606-609). -/
def accumulateFrame (acc elapsed : ℝ) : ℝ := acc + clampFrameTime elapsed

/-- The fixed-step drain loop (lines 639-667): while the accumulator is at
least one step, run one physics step and subtract the step size. -/
def drainLoop (G : ℝ) (st : ℝ × List CBody) : ℝ × List CBody :=
  if physics_step ≤ st.1 then
    drainLoop G (st.1 - physics_step, physicsStepOnce G physics_step st.2)
  else st
termination_by (Int.ceil (st.1 / physics_step)).toNat
decreasing_by
  have hs : (0 : ℝ) < physics_step := by norm_num [physics_step]
  have h1 : (1 : ℝ) ≤ st.1 / physics_step := (one_le_div hs).2 (by assumption)
  have h2 : (st.1 - physics_step) / physics_step = st.1 / physics_step - 1 := by
    field_simp
  have h3 : (1 : ℤ) ≤ Int.ceil (st.1 / physics_step) := by
    calc (1 : ℤ) = Int.ceil (1 : ℝ) := by simp
    _ ≤ Int.ceil (st.1 / physics_step) := Int.ceil_le_ceil h1
  have h4 : Int.ceil ((st.1 - physics_step) / physics_step)
      = Int.ceil (st.1 / physics_step) - 1 := by
    rw [h2, Int.ceil_sub_one]
  simp only [h4]
  omega

/-- The mode-toggle branch of key_callback (lines 118-127): flip the
rendering mode, reset every trail, drop the camera target. -/
def toggleModeStep (gs : GlobalState) : GlobalState :=
  { gs with
    rendering_mode :=
      if gs.rendering_mode = RENDER_MINIFIED then RENDER_TO_SCALE else RENDER_MINIFIED,
    celestial_bodies := gs.celestial_bodies.map CBody.resetPath,
    camera_target := -1 }

/-- The camera-target branch of key_callback (lines 135-145): only in
to-scale mode, cycle the target through the registry and back to the free
camera, resetting every trail.  For the reachable values of camera_target
(at least -1) the C percent operator agrees with Int.emod. -/
def cycleTargetStep (gs : GlobalState) : GlobalState :=
  if gs.rendering_mode = RENDER_TO_SCALE then
    let n : ℤ := gs.celestial_bodies.length
    let t := (gs.camera_target + 1) % (n + 1)
    { gs with
      camera_target := if t = n then -1 else t,
      celestial_bodies := gs.celestial_bodies.map CBody.resetPath }
  else gs

/-- scroll_callback (lines 148-172): ignored without a focused target or in
minified mode; otherwise step the zoom level within [0, NUM_ZOOM_LEVELS],
reset every trail and recompute the focused camera distance on the
logarithmic ramp. -/
def scroll_callback (gs : GlobalState) (yoffset : ℝ) : GlobalState :=
  if gs.camera_target = -1 ∨ gs.rendering_mode = RENDER_MINIFIED then gs
  else
    let target := getBody gs.celestial_bodies gs.camera_target.toNat
    let max_zoom := Real.logb 2 (target.size * 3.5)
    let min_zoom := Real.logb 2 MIN_ZOOM
    let zoom :=
      if 0 < yoffset ∧ gs.zoom_level < NUM_ZOOM_LEVELS then gs.zoom_level + 1
      else if yoffset < 0 ∧ 0 < gs.zoom_level then gs.zoom_level - 1
      else gs.zoom_level
    { gs with
      zoom_level := zoom,
      celestial_bodies := gs.celestial_bodies.map CBody.resetPath,
      focused_camera_distance :=
        (2 : ℝ) ^ (min_zoom + (max_zoom - min_zoom) * (zoom : ℝ) / (NUM_ZOOM_LEVELS : ℝ)) }

/-- The per-frame camera block of main (lines 670-698), restricted to the
camera position it stores: the free camera sits at (0, 1000, 0); a focused
camera sits at the target position, pushed out along the target velocity by
the body size plus the focused distance, and lifted by half the focused
distance. -/
def cameraUpdate (gs : GlobalState) : GlobalState :=
  if gs.camera_target = -1 then { gs with camera_pos := (0, 1000, 0) }
  else
    let target := getBody gs.celestial_bodies gs.camera_target.toNat
    let cp0 : Vec3 :=
      (target.position + (target.size + gs.focused_camera_distance) • vnormalize target.velocity)
        - target.position
    let cp1 : Vec3 := cp0 + target.position
    let cp2 : Vec3 := cp1 + (0, gs.focused_camera_distance / 2, 0)
    { gs with camera_pos := cp2 }

/-- Modelled from the spec (section 4.4): the camera position formula the
spec claims, with the zoom distance recomputed from the zoom level on the
logarithmic ramp every time.  The source instead uses the stored
focused_camera_distance.  This definition exists to be compared with
`cameraUpdate`. -/
def specCameraPos (gs : GlobalState) : Vec3 :=
  let target := getBody gs.celestial_bodies gs.camera_target.toNat
  let distance : ℝ :=
    (2 : ℝ) ^ (Real.logb 2 MIN_ZOOM
      + (Real.logb 2 (target.size * 3.5) - Real.logb 2 MIN_ZOOM) * (gs.zoom_level : ℝ)
        / (NUM_ZOOM_LEVELS : ℝ))
  renderedPosition gs.rendering_mode target
    + (target.size + distance) • vnormalize target.velocity
    + (0, distance / 2, 0)

/-- Sample anchored pair used by witnesses: an anchor with no own anchor. -/
def sampleAnchor : CBody :=
  .mk (1, 0, 0) (0, 0, 0) 1 1 (0, 0, 0) create_line_path 2 1 none

/-- Sample anchored pair used by witnesses: a child anchored to sampleAnchor. -/
def sampleChild : CBody :=
  .mk (3, 0, 0) (0, 0, 0) 1 1 (0, 0, 0) create_line_path 5 7 (some sampleAnchor)

/-- Depth-two anchor chain used to compare one-level composition with the
recursive composition: the root body, away from the origin. -/
def cSun : CBody := .mk (8, 0, 0) (0, 0, 0) 1 1 (0, 0, 0) create_line_path 2 1 none

/-- Middle of the depth-two anchor chain, anchored to cSun. -/
def cEarth : CBody := .mk (10, 0, 0) (0, 0, 0) 1 1 (0, 0, 0) create_line_path 3 1 (some cSun)

/-- Leaf of the depth-two anchor chain, anchored to cEarth. -/
def cMoon : CBody := .mk (11, 0, 0) (0, 0, 0) 1 1 (0, 0, 0) create_line_path 5 1 (some cEarth)

/-- Sample body used by camera and zoom witnesses. -/
def bodyW : CBody :=
  .mk (0, 0, 0) (0, 0, 1) 1 (25 / 7) (0, 0, 0) create_line_path 1 1 none

/-- Sample focused global state used by zoom and camera witnesses. -/
def gsW : GlobalState :=
  ⟨RENDER_TO_SCALE, [bodyW], 0, (0, 0, 0), 25, 10, false, false⟩

end

/-! ### Helper lemmas on the data model -/

@[simp] lemma CBody.position_withVelocity (c : CBody) (v : Vec3) :
    (c.withVelocity v).position = c.position := by cases c; rfl

@[simp] lemma CBody.velocity_withVelocity (c : CBody) (v : Vec3) :
    (c.withVelocity v).velocity = v := by cases c; rfl

@[simp] lemma CBody.mass_withVelocity (c : CBody) (v : Vec3) :
    (c.withVelocity v).mass = c.mass := by cases c; rfl

@[simp] lemma CBody.size_withVelocity (c : CBody) (v : Vec3) :
    (c.withVelocity v).size = c.size := by cases c; rfl

@[simp] lemma CBody.position_withPosition (c : CBody) (p : Vec3) :
    (c.withPosition p).position = p := by cases c; rfl

@[simp] lemma CBody.velocity_withPosition (c : CBody) (p : Vec3) :
    (c.withPosition p).velocity = c.velocity := by cases c; rfl

@[simp] lemma CBody.mass_withPosition (c : CBody) (p : Vec3) :
    (c.withPosition p).mass = c.mass := by cases c; rfl

@[simp] lemma CBody.size_withPosition (c : CBody) (p : Vec3) :
    (c.withPosition p).size = c.size := by cases c; rfl

@[simp] lemma CBody.position_resetPath (c : CBody) :
    c.resetPath.position = c.position := by cases c; rfl

@[simp] lemma CBody.velocity_resetPath (c : CBody) :
    c.resetPath.velocity = c.velocity := by cases c; rfl

@[simp] lemma CBody.mass_resetPath (c : CBody) :
    c.resetPath.mass = c.mass := by cases c; rfl

@[simp] lemma CBody.size_resetPath (c : CBody) :
    c.resetPath.size = c.size := by cases c; rfl

@[simp] lemma CBody.resetPath_default : (default : CBody).resetPath = default := rfl

lemma getBody_set_self {bs : List CBody} {i : ℕ} (c : CBody) (h : i < bs.length) :
    getBody (bs.set i c) i = c := by
  simp [getBody, List.getD_eq_getElem?_getD, List.getElem?_set_self h]

lemma getBody_set_ne {bs : List CBody} {i k : ℕ} (c : CBody) (h : i ≠ k) :
    getBody (bs.set i c) k = getBody bs k := by
  simp [getBody, List.getD_eq_getElem?_getD, List.getElem?_set_ne h]

lemma getBody_map_resetPath (bs : List CBody) (i : ℕ) :
    getBody (bs.map CBody.resetPath) i = (getBody bs i).resetPath := by
  simp only [getBody, List.getD_eq_getElem?_getD, List.getElem?_map]
  cases bs[i]? <;> simp

/-! ### C3: presentation transform -/

/-- C3: in to-scale mode the presentation transform is the identity
(renderPosition the body position, renderScale the body size); in minified
mode without an anchor the position is scaled by the body distance scale; in
minified mode with an anchor that has no own anchor, the position is the
anchor position scaled by the anchor distance scale plus the offset from the
anchor scaled by the body distance scale, and the scale is the body size
times the body minified size scale. -/
theorem c3_presentation_transform (c a : CBody) :
    (renderedPosition RENDER_TO_SCALE c = c.position ∧
      renderScale RENDER_TO_SCALE c = c.size) ∧
    (c.anchor = none →
      renderedPosition RENDER_MINIFIED c = c.minified_dist_scale • c.position) ∧
    (c.anchor = some a → a.anchor = none →
      renderedPosition RENDER_MINIFIED c
          = a.minified_dist_scale • a.position
            + c.minified_dist_scale • (c.position - a.position) ∧
      renderScale RENDER_MINIFIED c = c.size * c.minified_size_scale) := by
  refine ⟨⟨?_, ?_⟩, fun h => ?_, fun h _ => ⟨?_, ?_⟩⟩
  · simp [renderedPosition]
  · simp [renderScale]
  · simp [renderedPosition, h]
  · simp [renderedPosition, h]
  · simp [renderScale]

/-- Witness for C3 at a concrete anchored pair. -/
theorem c3_presentation_transform_witness :
    renderedPosition RENDER_MINIFIED sampleChild
        = sampleAnchor.minified_dist_scale • sampleAnchor.position
          + sampleChild.minified_dist_scale •
            (sampleChild.position - sampleAnchor.position) ∧
    renderScale RENDER_MINIFIED sampleChild
        = sampleChild.size * sampleChild.minified_size_scale :=
  (c3_presentation_transform sampleChild sampleAnchor).2.2 rfl rfl

/-! ### C10: frame effects of ToggleMode and CycleTarget -/

/-- C10: the mode-toggle and the target-cycle events leave the zoom level,
the stored focused camera distance, and every body position, velocity, mass
and size unchanged. -/
theorem c10_toggle_cycle_preserve (gs : GlobalState) (i : ℕ) :
    (toggleModeStep gs).zoom_level = gs.zoom_level ∧
    (toggleModeStep gs).focused_camera_distance = gs.focused_camera_distance ∧
    (getBody (toggleModeStep gs).celestial_bodies i).position
        = (getBody gs.celestial_bodies i).position ∧
    (getBody (toggleModeStep gs).celestial_bodies i).velocity
        = (getBody gs.celestial_bodies i).velocity ∧
    (getBody (toggleModeStep gs).celestial_bodies i).mass
        = (getBody gs.celestial_bodies i).mass ∧
    (getBody (toggleModeStep gs).celestial_bodies i).size
        = (getBody gs.celestial_bodies i).size ∧
    (cycleTargetStep gs).zoom_level = gs.zoom_level ∧
    (cycleTargetStep gs).focused_camera_distance = gs.focused_camera_distance ∧
    (getBody (cycleTargetStep gs).celestial_bodies i).position
        = (getBody gs.celestial_bodies i).position ∧
    (getBody (cycleTargetStep gs).celestial_bodies i).velocity
        = (getBody gs.celestial_bodies i).velocity ∧
    (getBody (cycleTargetStep gs).celestial_bodies i).mass
        = (getBody gs.celestial_bodies i).mass ∧
    (getBody (cycleTargetStep gs).celestial_bodies i).size
        = (getBody gs.celestial_bodies i).size := by
  by_cases h : gs.rendering_mode = RENDER_TO_SCALE <;>
    simp [toggleModeStep, cycleTargetStep, h, getBody_map_resetPath]

/-! ### C9: zoom events -/

lemma scroll_callback_camera_target (gs : GlobalState) (y : ℝ) :
    (scroll_callback gs y).camera_target = gs.camera_target := by
  unfold scroll_callback
  split <;> simp

lemma scroll_callback_rendering_mode (gs : GlobalState) (y : ℝ) :
    (scroll_callback gs y).rendering_mode = gs.rendering_mode := by
  unfold scroll_callback
  split <;> simp

lemma scroll_callback_zoom_mem (gs : GlobalState) (y : ℝ) :
    (scroll_callback gs y).zoom_level = gs.zoom_level ∨
    ((scroll_callback gs y).zoom_level = gs.zoom_level + 1 ∧
      0 < y ∧ gs.zoom_level < NUM_ZOOM_LEVELS) ∨
    ((scroll_callback gs y).zoom_level = gs.zoom_level - 1 ∧
      y < 0 ∧ 0 < gs.zoom_level) := by
  simp only [scroll_callback]
  split_ifs with h1 h2 h3
  · left; rfl
  · right; left; exact ⟨rfl, h2⟩
  · right; right; exact ⟨rfl, h3⟩
  · left; rfl

lemma scroll_callback_zoom_pos {gs : GlobalState} {y : ℝ}
    (ht : ¬(gs.camera_target = -1 ∨ gs.rendering_mode = RENDER_MINIFIED))
    (hy : 0 < y) (hz : gs.zoom_level ≤ NUM_ZOOM_LEVELS) :
    (scroll_callback gs y).zoom_level = min (gs.zoom_level + 1) NUM_ZOOM_LEVELS := by
  have hup : gs.zoom_level < NUM_ZOOM_LEVELS →
      (scroll_callback gs y).zoom_level = gs.zoom_level + 1 := by
    intro hlt
    simp only [scroll_callback]
    rw [if_neg ht, if_pos ⟨hy, hlt⟩]
  have hstay : gs.zoom_level = NUM_ZOOM_LEVELS →
      (scroll_callback gs y).zoom_level = gs.zoom_level := by
    intro heq
    simp only [scroll_callback]
    rw [if_neg ht, if_neg (by simp [heq]), if_neg (by simp [hy.asymm])]
  by_cases hlt : gs.zoom_level < NUM_ZOOM_LEVELS
  · rw [hup hlt]; omega
  · have heq : gs.zoom_level = NUM_ZOOM_LEVELS := le_antisymm hz (not_lt.1 hlt)
    rw [hstay heq]; omega

lemma scroll_callback_zoom_neg {gs : GlobalState} {y : ℝ}
    (ht : ¬(gs.camera_target = -1 ∨ gs.rendering_mode = RENDER_MINIFIED))
    (hy : y < 0) (hz : 0 ≤ gs.zoom_level) :
    (scroll_callback gs y).zoom_level = max (gs.zoom_level - 1) 0 := by
  have hdn : 0 < gs.zoom_level →
      (scroll_callback gs y).zoom_level = gs.zoom_level - 1 := by
    intro hlt
    simp only [scroll_callback]
    rw [if_neg ht, if_neg (by simp [hy.asymm]), if_pos ⟨hy, hlt⟩]
  have hstay : gs.zoom_level = 0 →
      (scroll_callback gs y).zoom_level = gs.zoom_level := by
    intro heq
    simp only [scroll_callback]
    rw [if_neg ht, if_neg (by simp [hy.asymm]), if_neg (by simp [heq])]
  by_cases hlt : 0 < gs.zoom_level
  · rw [hdn hlt]; omega
  · have heq : gs.zoom_level = 0 := le_antisymm (not_lt.1 hlt) hz
    rw [hstay heq]; omega

lemma scroll_fold_pos :
    ∀ (offs : List ℝ) (gs : GlobalState), (∀ o ∈ offs, 0 < o) →
      gs.camera_target ≠ -1 → gs.rendering_mode ≠ RENDER_MINIFIED →
      gs.zoom_level ≤ NUM_ZOOM_LEVELS →
      (offs.foldl scroll_callback gs).zoom_level
        = min (gs.zoom_level + offs.length) NUM_ZOOM_LEVELS := by
  intro offs
  induction offs with
  | nil =>
    intro gs _ _ _ hz
    simpa using (by omega : gs.zoom_level = min (gs.zoom_level + 0) NUM_ZOOM_LEVELS)
  | cons o offs ih =>
    intro gs hpos htg hmd hz
    have hstep : (scroll_callback gs o).zoom_level = min (gs.zoom_level + 1) NUM_ZOOM_LEVELS :=
      scroll_callback_zoom_pos (by tauto) (hpos o (by simp)) hz
    have h1 : (scroll_callback gs o).camera_target ≠ -1 := by
      rw [scroll_callback_camera_target]; exact htg
    have h2 : (scroll_callback gs o).rendering_mode ≠ RENDER_MINIFIED := by
      rw [scroll_callback_rendering_mode]; exact hmd
    have h3 : (scroll_callback gs o).zoom_level ≤ NUM_ZOOM_LEVELS := by
      rw [hstep]; omega
    have := ih (scroll_callback gs o) (fun o' ho' => hpos o' (by simp [ho'])) h1 h2 h3
    simp only [List.foldl_cons, this, hstep, List.length_cons]
    push_cast
    omega

lemma scroll_fold_neg :
    ∀ (offs : List ℝ) (gs : GlobalState), (∀ o ∈ offs, o < 0) →
      gs.camera_target ≠ -1 → gs.rendering_mode ≠ RENDER_MINIFIED →
      0 ≤ gs.zoom_level →
      (offs.foldl scroll_callback gs).zoom_level
        = max (gs.zoom_level - offs.length) 0 := by
  intro offs
  induction offs with
  | nil =>
    intro gs _ _ _ hz
    simpa using (by omega : gs.zoom_level = max (gs.zoom_level - 0) 0)
  | cons o offs ih =>
    intro gs hneg htg hmd hz
    have hstep : (scroll_callback gs o).zoom_level = max (gs.zoom_level - 1) 0 :=
      scroll_callback_zoom_neg (by tauto) (hneg o (by simp)) hz
    have h1 : (scroll_callback gs o).camera_target ≠ -1 := by
      rw [scroll_callback_camera_target]; exact htg
    have h2 : (scroll_callback gs o).rendering_mode ≠ RENDER_MINIFIED := by
      rw [scroll_callback_rendering_mode]; exact hmd
    have h3 : 0 ≤ (scroll_callback gs o).zoom_level := by
      rw [hstep]; omega
    have := ih (scroll_callback gs o) (fun o' ho' => hneg o' (by simp [ho'])) h1 h2 h3
    simp only [List.foldl_cons, this, hstep, List.length_cons]
    push_cast
    omega

/-- C9: a zoom event with no focused target or in minified mode leaves the
whole state unchanged; otherwise a positive input moves the zoom level to
min(zoom + 1, NUM_ZOOM_LEVELS) and a negative one to max(zoom - 1, 0); the
zoom level stays inside [0, NUM_ZOOM_LEVELS]; and repeated positive
(respectively negative) inputs saturate at NUM_ZOOM_LEVELS (respectively
0). -/
theorem c9_zoom_events (gs : GlobalState) (y : ℝ) :
    ((gs.camera_target = -1 ∨ gs.rendering_mode = RENDER_MINIFIED) →
      scroll_callback gs y = gs) ∧
    (gs.camera_target ≠ -1 → gs.rendering_mode ≠ RENDER_MINIFIED →
      (gs.zoom_level ≤ NUM_ZOOM_LEVELS → 0 < y →
        (scroll_callback gs y).zoom_level = min (gs.zoom_level + 1) NUM_ZOOM_LEVELS) ∧
      (0 ≤ gs.zoom_level → y < 0 →
        (scroll_callback gs y).zoom_level = max (gs.zoom_level - 1) 0)) ∧
    (0 ≤ gs.zoom_level → gs.zoom_level ≤ NUM_ZOOM_LEVELS →
      0 ≤ (scroll_callback gs y).zoom_level ∧
      (scroll_callback gs y).zoom_level ≤ NUM_ZOOM_LEVELS) ∧
    (∀ offs : List ℝ, (∀ o ∈ offs, 0 < o) → gs.camera_target ≠ -1 →
      gs.rendering_mode ≠ RENDER_MINIFIED → gs.zoom_level ≤ NUM_ZOOM_LEVELS →
      (offs.foldl scroll_callback gs).zoom_level
        = min (gs.zoom_level + offs.length) NUM_ZOOM_LEVELS) ∧
    (∀ offs : List ℝ, (∀ o ∈ offs, o < 0) → gs.camera_target ≠ -1 →
      gs.rendering_mode ≠ RENDER_MINIFIED → 0 ≤ gs.zoom_level →
      (offs.foldl scroll_callback gs).zoom_level
        = max (gs.zoom_level - offs.length) 0) := by
  refine ⟨fun h => ?_, fun h1 h2 => ⟨fun hz hy => ?_, fun hz hy => ?_⟩,
    fun h0 h20 => ?_, fun offs h a b c => scroll_fold_pos offs gs h a b c,
    fun offs h a b c => scroll_fold_neg offs gs h a b c⟩
  · unfold scroll_callback
    rw [if_pos h]
  · exact scroll_callback_zoom_pos (by tauto) hy hz
  · exact scroll_callback_zoom_neg (by tauto) hy hz
  · rcases scroll_callback_zoom_mem gs y with h | ⟨h, _, h2⟩ | ⟨h, _, h2⟩ <;>
      rw [h] <;> omega

/-- Witness for C9: two positive zoom inputs from zoom level 10 land on
min(12, 20). -/
theorem c9_zoom_events_witness :
    ([(1 : ℝ), 1].foldl scroll_callback gsW).zoom_level
      = min (gsW.zoom_level + ([(1 : ℝ), 1].length : ℤ)) NUM_ZOOM_LEVELS :=
  (c9_zoom_events gsW 0).2.2.2.1 [1, 1] (by norm_num)
    (by simp [gsW]) (by simp [gsW]) (by simp [gsW, NUM_ZOOM_LEVELS])


/-! ### C7: fixed-step accumulator -/

lemma drainLoop_first_bounds (G : ℝ) (st : ℝ × List CBody) :
    0 ≤ st.1 → 0 ≤ (drainLoop G st).1 ∧ (drainLoop G st).1 < physics_step := by
  induction st using drainLoop.induct G with
  | case1 st hle ih =>
    intro _
    rw [drainLoop, if_pos hle]
    refine ih ?_
    have hstep : (0 : ℝ) < physics_step := by norm_num [physics_step]
    show 0 ≤ st.1 - physics_step
    linarith
  | case2 st hnot =>
    intro h
    rw [drainLoop, if_neg hnot]
    exact ⟨h, not_le.1 hnot⟩

/-- C7: each frame adds min(elapsed, 0.3) to the physics accumulator; the
drain loop, which subtracts one step per fixed physics step while the
accumulator is at least one step (and is a total function, hence terminates
for every accumulator value), leaves a nonnegative accumulator below one
step whenever it starts nonnegative. -/
theorem c7_accumulator_drain (G elapsed acc : ℝ) (bodies : List CBody)
    (h : 0 ≤ acc) :
    accumulateFrame acc elapsed - acc = min elapsed 0.3 ∧
    drainLoop G (acc, bodies)
      = (if physics_step ≤ acc then
          drainLoop G (acc - physics_step, physicsStepOnce G physics_step bodies)
        else (acc, bodies)) ∧
    0 ≤ (drainLoop G (acc, bodies)).1 ∧ (drainLoop G (acc, bodies)).1 < physics_step := by
  refine ⟨?_, ?_, drainLoop_first_bounds G (acc, bodies) h⟩
  · unfold accumulateFrame clampFrameTime
    split_ifs with h1
    · rw [min_eq_right h1.le]; ring
    · rw [min_eq_left (not_lt.1 h1)]; ring
  · rw [drainLoop]

/-- Witness for C7 at accumulator 1/100 (three steps of 1/300 drain to 0). -/
theorem c7_accumulator_drain_witness :
    accumulateFrame (1 / 100) 1 - 1 / 100 = min 1 0.3 ∧
    drainLoop 6 (1 / 100, [])
      = (if physics_step ≤ 1 / 100 then
          drainLoop 6 (1 / 100 - physics_step, physicsStepOnce 6 physics_step [])
        else (1 / 100, [])) ∧
    0 ≤ (drainLoop 6 (1 / 100, [])).1 ∧ (drainLoop 6 (1 / 100, [])).1 < physics_step :=
  c7_accumulator_drain 6 1 (1 / 100) [] (by norm_num)

/-! ### C2: trail ring buffer -/

/-- Iterated append calls on a fresh trail, one per argument tuple
(position, previous endpoints, width). -/
noncomputable def appendRun (args : List (Vec3 × Vec3 × Vec3 × ℝ)) : LinePath :=
  args.foldl (fun lp a => append_to_line_path lp a.1 a.2.1 a.2.2.1 a.2.2.2) create_line_path

/-- The segment an append call with the given argument tuple stores. -/
noncomputable def argLine (a : Vec3 × Vec3 × Vec3 × ℝ) : Line :=
  appendedLine a.1 a.2.1 a.2.2.1 a.2.2.2

lemma bufferInsert_notfull {lp : LinePath} (l : Line) (h0 : lp.path_start = 0)
    (hn : lp.num_segments < MAX_LINE_PATH_SEGMENTS) :
    bufferInsert lp l
      = ⟨Function.update lp.lines lp.num_segments l, 0, lp.num_segments + 1⟩ := by
  unfold bufferInsert
  rw [if_neg (by omega)]
  simp only [h0, Nat.zero_add, Nat.mod_eq_of_lt hn]

lemma bufferInsert_full {lp : LinePath} (l : Line)
    (hs : lp.path_start < MAX_LINE_PATH_SEGMENTS)
    (hn : lp.num_segments = MAX_LINE_PATH_SEGMENTS) :
    bufferInsert lp l
      = ⟨Function.update lp.lines lp.path_start l,
          (lp.path_start + 1) % MAX_LINE_PATH_SEGMENTS, MAX_LINE_PATH_SEGMENTS⟩ := by
  unfold bufferInsert
  rw [if_pos (by omega)]
  have hidx : (lp.path_start + lp.num_segments) % MAX_LINE_PATH_SEGMENTS = lp.path_start := by
    rw [hn, Nat.add_mod_right, Nat.mod_eq_of_lt hs]
  rw [hidx]

lemma linearize_mk (f : ℕ → Line) (s n : ℕ) :
    linearize ⟨f, s, n⟩
      = (List.range (n - s)).map (fun k => f (s + k))
        ++ (List.range s).map (fun k => f k) := rfl

lemma linearize_zero_start {lp : LinePath} (h0 : lp.path_start = 0) :
    linearize lp = (List.range lp.num_segments).map lp.lines := by
  unfold linearize
  rw [h0]
  simp

lemma map_range_drop_one {α : Type} (g : ℕ → α) (m : ℕ) :
    ((List.range (m + 1)).map g).drop 1 = (List.range m).map fun k => g (k + 1) := by
  rw [List.range_succ_eq_map, List.map_cons, List.drop_one, List.tail_cons, List.map_map]
  apply List.map_congr_left
  intro k _
  simp [Nat.succ_eq_add_one]

lemma linearize_notfull_insert {lp : LinePath} (l : Line) (h0 : lp.path_start = 0)
    (hn : lp.num_segments < MAX_LINE_PATH_SEGMENTS) :
    linearize (bufferInsert lp l) = linearize lp ++ [l] := by
  rw [bufferInsert_notfull l h0 hn,
    @linearize_zero_start ⟨Function.update lp.lines lp.num_segments l, 0,
      lp.num_segments + 1⟩ rfl,
    linearize_zero_start h0]
  show (List.range (lp.num_segments + 1)).map (Function.update lp.lines lp.num_segments l) = _
  rw [List.range_succ, List.map_append,
    List.map_congr_left (f := Function.update lp.lines lp.num_segments l) (g := lp.lines)
      (fun k hk => Function.update_noteq (by have := List.mem_range.1 hk; omega) l lp.lines)]
  congr 1
  rw [List.map_cons, List.map_nil, Function.update_same]

lemma linearize_full_insert {lp : LinePath} (l : Line)
    (hs : lp.path_start < MAX_LINE_PATH_SEGMENTS)
    (hn : lp.num_segments = MAX_LINE_PATH_SEGMENTS) :
    linearize (bufferInsert lp l) = (linearize lp).drop 1 ++ [l] := by
  rw [bufferInsert_full l hs hn, linearize_mk]
  unfold linearize
  rw [hn]
  rw [List.drop_append_of_le_length (by simp; omega)]
  rw [(by omega : MAX_LINE_PATH_SEGMENTS - lp.path_start
      = (MAX_LINE_PATH_SEGMENTS - lp.path_start - 1) + 1)]
  rw [map_range_drop_one]
  by_cases hcase : lp.path_start + 1 < MAX_LINE_PATH_SEGMENTS
  · rw [Nat.mod_eq_of_lt hcase]
    rw [(by omega : MAX_LINE_PATH_SEGMENTS - (lp.path_start + 1)
        = MAX_LINE_PATH_SEGMENTS - lp.path_start - 1)]
    rw [List.range_succ, List.map_append]
    rw [List.map_congr_left
      (f := fun k => Function.update lp.lines lp.path_start l (lp.path_start + 1 + k))
      (g := fun k => lp.lines (lp.path_start + (k + 1)))
      (fun k _ => by
        show Function.update lp.lines lp.path_start l (lp.path_start + 1 + k)
          = lp.lines (lp.path_start + (k + 1))
        rw [Function.update_noteq (by omega) l lp.lines]
        congr 1
        omega)]
    rw [List.map_congr_left
      (f := fun k => Function.update lp.lines lp.path_start l k)
      (g := fun k => lp.lines k)
      (fun k hk =>
        Function.update_noteq (by have := List.mem_range.1 hk; omega) l lp.lines)]
    rw [List.map_cons, List.map_nil, Function.update_same, ← List.append_assoc]
  · have h1 : lp.path_start + 1 = MAX_LINE_PATH_SEGMENTS := by omega
    rw [h1, Nat.mod_self, Nat.sub_zero, List.range_zero, List.map_nil, List.append_nil]
    rw [(by omega : MAX_LINE_PATH_SEGMENTS - lp.path_start - 1 = 0)]
    rw [List.range_zero, List.map_nil, List.nil_append]
    rw [← h1, List.range_succ, List.map_append]
    rw [List.map_congr_left
      (f := fun k => Function.update lp.lines lp.path_start l (0 + k))
      (g := fun k => lp.lines k)
      (fun k hk => by
        show Function.update lp.lines lp.path_start l (0 + k) = lp.lines k
        rw [Nat.zero_add]
        exact Function.update_noteq
          (show k ≠ lp.path_start from by have := List.mem_range.1 hk; omega) l lp.lines)]
    rw [List.map_cons, List.map_nil, Nat.zero_add, Function.update_same]

lemma buildRun_invariant (ls : List Line) :
    (ls.foldl bufferInsert create_line_path).path_start < MAX_LINE_PATH_SEGMENTS ∧
    (ls.foldl bufferInsert create_line_path).num_segments
      = min ls.length MAX_LINE_PATH_SEGMENTS ∧
    (ls.length < MAX_LINE_PATH_SEGMENTS →
      (ls.foldl bufferInsert create_line_path).path_start = 0) ∧
    linearize (ls.foldl bufferInsert create_line_path)
      = ls.drop (ls.length - MAX_LINE_PATH_SEGMENTS) := by
  induction ls using List.reverseRecOn with
  | nil =>
    refine ⟨by norm_num [create_line_path, MAX_LINE_PATH_SEGMENTS], ?_, fun _ => rfl, ?_⟩
    · simp [create_line_path]
    · simp [linearize, create_line_path]
  | append_singleton ls l ih =>
    obtain ⟨h1, h2, h3, h4⟩ := ih
    simp only [List.foldl_append, List.foldl_cons, List.foldl_nil] at *
    by_cases hfull : ls.length < MAX_LINE_PATH_SEGMENTS
    · have hs0 : (ls.foldl bufferInsert create_line_path).path_start = 0 := h3 hfull
      have hnum : (ls.foldl bufferInsert create_line_path).num_segments = ls.length := by
        rw [h2]; omega
      have hlt : (ls.foldl bufferInsert create_line_path).num_segments
          < MAX_LINE_PATH_SEGMENTS := by omega
      refine ⟨?_, ?_, fun _ => ?_, ?_⟩
      · rw [bufferInsert_notfull l hs0 hlt]
        show 0 < MAX_LINE_PATH_SEGMENTS
        norm_num [MAX_LINE_PATH_SEGMENTS]
      · rw [bufferInsert_notfull l hs0 hlt]
        show (ls.foldl bufferInsert create_line_path).num_segments + 1
          = min (ls ++ [l]).length MAX_LINE_PATH_SEGMENTS
        rw [hnum, List.length_append, List.length_singleton]
        omega
      · rw [bufferInsert_notfull l hs0 hlt]
      · rw [linearize_notfull_insert l hs0 hlt, h4, List.length_append,
          List.length_singleton]
        rw [Nat.sub_eq_zero_of_le (by omega), Nat.sub_eq_zero_of_le (by omega)]
        simp
    · have hnum : (ls.foldl bufferInsert create_line_path).num_segments
          = MAX_LINE_PATH_SEGMENTS := by rw [h2]; omega
      refine ⟨?_, ?_, fun hcon => ?_, ?_⟩
      · rw [bufferInsert_full l h1 hnum]
        show ((ls.foldl bufferInsert create_line_path).path_start + 1)
            % MAX_LINE_PATH_SEGMENTS < MAX_LINE_PATH_SEGMENTS
        exact Nat.mod_lt _ (by norm_num [MAX_LINE_PATH_SEGMENTS])
      · rw [bufferInsert_full l h1 hnum]
        show MAX_LINE_PATH_SEGMENTS = min (ls ++ [l]).length MAX_LINE_PATH_SEGMENTS
        rw [List.length_append, List.length_singleton]
        omega
      · exfalso
        rw [List.length_append, List.length_singleton] at hcon
        omega
      · rw [linearize_full_insert l h1 hnum, h4, List.drop_drop, List.length_append,
          List.length_singleton,
          List.drop_append_of_le_length (by omega :
            ls.length + 1 - MAX_LINE_PATH_SEGMENTS ≤ ls.length)]
        rw [(by omega : ls.length - MAX_LINE_PATH_SEGMENTS + 1
            = ls.length + 1 - MAX_LINE_PATH_SEGMENTS)]

/-- Sample full trail used by the C2 witness. -/
noncomputable def lpFullW : LinePath := ⟨fun _ => zeroLine, 5, MAX_LINE_PATH_SEGMENTS⟩

/-- Sample append argument tuple used by the C2 witness. -/
noncomputable def argW : Vec3 × Vec3 × Vec3 × ℝ := ((0, 0, 0), (0, 0, 0), (0, 0, 0), 0)

/-- C2: over any sequence of append calls starting from a fresh trail the
count is min(number of appends, capacity), so it never exceeds the capacity;
linearize returns exactly the last min(count, capacity) appended segments in
chronological order (oldest evicted first); and an insertion arriving at a
full buffer writes at slot (start + count) mod capacity = start, keeps the
count at the capacity, and advances start by one modulo the capacity. -/
theorem c2_ring_buffer (args : List (Vec3 × Vec3 × Vec3 × ℝ)) (lp : LinePath) (l : Line)
    (hs : lp.path_start < MAX_LINE_PATH_SEGMENTS)
    (hn : lp.num_segments = MAX_LINE_PATH_SEGMENTS) :
    (appendRun args).num_segments = min args.length MAX_LINE_PATH_SEGMENTS ∧
    linearize (appendRun args)
      = (args.map argLine).drop (args.length - MAX_LINE_PATH_SEGMENTS) ∧
    bufferInsert lp l
      = ⟨Function.update lp.lines lp.path_start l,
          (lp.path_start + 1) % MAX_LINE_PATH_SEGMENTS, MAX_LINE_PATH_SEGMENTS⟩ := by
  have hrun : appendRun args = (args.map argLine).foldl bufferInsert create_line_path := by
    rw [List.foldl_map]
    rfl
  have hinv := buildRun_invariant (args.map argLine)
  refine ⟨?_, ?_, bufferInsert_full l hs hn⟩
  · rw [hrun, hinv.2.1, List.length_map]
  · rw [hrun, hinv.2.2.2, List.length_map]

/-- Witness for C2: one append on a fresh trail and one insertion into a
full trail with start slot 5. -/
theorem c2_ring_buffer_witness :
    (appendRun [argW]).num_segments = min [argW].length MAX_LINE_PATH_SEGMENTS ∧
    linearize (appendRun [argW])
      = ([argW].map argLine).drop ([argW].length - MAX_LINE_PATH_SEGMENTS) ∧
    bufferInsert lpFullW zeroLine
      = ⟨Function.update lpFullW.lines lpFullW.path_start zeroLine,
          (lpFullW.path_start + 1) % MAX_LINE_PATH_SEGMENTS, MAX_LINE_PATH_SEGMENTS⟩ :=
  c2_ring_buffer [argW] lpFullW zeroLine
    (by norm_num [lpFullW, MAX_LINE_PATH_SEGMENTS]) rfl

/-! ### C1: one fixed physics step -/

lemma gravInner_length (G dt : ℝ) (i : ℕ) (acc : List CBody) (j : ℕ) :
    (gravInner G dt i acc j).length = acc.length := by
  unfold gravInner
  split <;> simp

lemma gravInner_position (G dt : ℝ) (i : ℕ) (acc : List CBody) (j : ℕ) :
    ∀ k, (getBody (gravInner G dt i acc j) k).position = (getBody acc k).position := by
  intro k
  unfold gravInner
  split
  · rfl
  · by_cases hk : i = k
    · subst hk
      by_cases hlen : i < acc.length
      · rw [getBody_set_self _ hlen, CBody.position_withVelocity]
      · rw [List.set_eq_of_length_le (by omega)]
    · rw [getBody_set_ne _ hk]

lemma gravInner_mass (G dt : ℝ) (i : ℕ) (acc : List CBody) (j : ℕ) :
    ∀ k, (getBody (gravInner G dt i acc j) k).mass = (getBody acc k).mass := by
  intro k
  unfold gravInner
  split
  · rfl
  · by_cases hk : i = k
    · subst hk
      by_cases hlen : i < acc.length
      · rw [getBody_set_self _ hlen, CBody.mass_withVelocity]
      · rw [List.set_eq_of_length_le (by omega)]
    · rw [getBody_set_ne _ hk]

lemma gravInner_other (G dt : ℝ) (i : ℕ) (acc : List CBody) (j k : ℕ) (hk : k ≠ i) :
    getBody (gravInner G dt i acc j) k = getBody acc k := by
  unfold gravInner
  split
  · rfl
  · exact getBody_set_ne _ (fun h => hk h.symm)

lemma gravInner_velocity_self (G dt : ℝ) (i : ℕ) (acc : List CBody) (j : ℕ)
    (hij : ¬ i = j) (hi : i < acc.length) :
    (getBody (gravInner G dt i acc j) i).velocity
      = (getBody acc i).velocity
        + velKick G dt (getBody acc i).position (getBody acc i).mass
            (getBody acc j).position (getBody acc j).mass := by
  unfold gravInner
  rw [if_neg hij, getBody_set_self _ hi, CBody.velocity_withVelocity]

lemma gravInner_fold (G dt : ℝ) (i : ℕ) :
    ∀ (js : List ℕ) (acc : List CBody), i < acc.length →
      (js.foldl (gravInner G dt i) acc).length = acc.length ∧
      (∀ k, (getBody (js.foldl (gravInner G dt i) acc) k).position
          = (getBody acc k).position) ∧
      (∀ k, (getBody (js.foldl (gravInner G dt i) acc) k).mass
          = (getBody acc k).mass) ∧
      (∀ k, k ≠ i → getBody (js.foldl (gravInner G dt i) acc) k = getBody acc k) ∧
      (getBody (js.foldl (gravInner G dt i) acc) i).velocity
        = (getBody acc i).velocity
          + (js.map (fun j => if i = j then 0
              else velKick G dt (getBody acc i).position (getBody acc i).mass
                (getBody acc j).position (getBody acc j).mass)).sum := by
  intro js
  induction js with
  | nil =>
    intro acc _
    exact ⟨rfl, fun _ => rfl, fun _ => rfl, fun _ _ => rfl, by simp⟩
  | cons j js ih =>
    intro acc hi
    have hlen1 : (gravInner G dt i acc j).length = acc.length := gravInner_length G dt i acc j
    have hi1 : i < (gravInner G dt i acc j).length := by rw [hlen1]; exact hi
    obtain ⟨ihlen, ihpos, ihmass, ihoth, ihvel⟩ := ih (gravInner G dt i acc j) hi1
    refine ⟨?_, ?_, ?_, ?_, ?_⟩
    · rw [List.foldl_cons, ihlen, hlen1]
    · intro k
      rw [List.foldl_cons, ihpos k, gravInner_position G dt i acc j k]
    · intro k
      rw [List.foldl_cons, ihmass k, gravInner_mass G dt i acc j k]
    · intro k hk
      rw [List.foldl_cons, ihoth k hk, gravInner_other G dt i acc j k hk]
    · rw [List.foldl_cons, ihvel, List.map_cons, List.sum_cons]
      simp only [gravInner_position G dt i acc j, gravInner_mass G dt i acc j]
      by_cases hij : i = j
      · have hstep : gravInner G dt i acc j = acc := by
          unfold gravInner
          rw [if_pos hij]
        rw [hstep, if_pos hij, zero_add]
      · rw [gravInner_velocity_self G dt i acc j hij hi, if_neg hij, add_assoc]

lemma gravOuter_fold (G dt : ℝ) (bs : List CBody) :
    ∀ (is : List ℕ) (acc : List CBody), is.Nodup → (∀ i ∈ is, i < bs.length) →
      acc.length = bs.length →
      (∀ k, (getBody acc k).position = (getBody bs k).position) →
      (∀ k, (getBody acc k).mass = (getBody bs k).mass) →
      (is.foldl (fun a i2 => (List.range bs.length).foldl (gravInner G dt i2) a) acc).length
          = bs.length ∧
      (∀ k, (getBody
          (is.foldl (fun a i2 => (List.range bs.length).foldl (gravInner G dt i2) a) acc)
          k).position = (getBody bs k).position) ∧
      (∀ k, (getBody
          (is.foldl (fun a i2 => (List.range bs.length).foldl (gravInner G dt i2) a) acc)
          k).mass = (getBody bs k).mass) ∧
      (∀ k, k ∉ is → getBody
          (is.foldl (fun a i2 => (List.range bs.length).foldl (gravInner G dt i2) a) acc) k
          = getBody acc k) ∧
      (∀ i2 ∈ is, (getBody
          (is.foldl (fun a i2 => (List.range bs.length).foldl (gravInner G dt i2) a) acc)
          i2).velocity = (getBody acc i2).velocity + kickSum G dt bs i2) := by
  intro is
  induction is with
  | nil =>
    intro acc _ _ hlen hpos hmass
    exact ⟨hlen, hpos, hmass, fun _ _ => rfl, fun _ hmem => absurd hmem (List.not_mem_nil _)⟩
  | cons i is ih =>
    intro acc hnd hmem hlen hpos hmass
    have hi : i < acc.length := by rw [hlen]; exact hmem i (List.mem_cons_self i is)
    obtain ⟨alen, apos, amass, aoth, avel⟩ :=
      gravInner_fold G dt i (List.range bs.length) acc hi
    have hlen1 : ((List.range bs.length).foldl (gravInner G dt i) acc).length = bs.length := by
      rw [alen, hlen]
    have hpos1 : ∀ k, (getBody ((List.range bs.length).foldl (gravInner G dt i) acc) k).position
        = (getBody bs k).position := fun k => by rw [apos k, hpos k]
    have hmass1 : ∀ k, (getBody ((List.range bs.length).foldl (gravInner G dt i) acc) k).mass
        = (getBody bs k).mass := fun k => by rw [amass k, hmass k]
    obtain ⟨blen, bpos, bmass, both, bvel⟩ :=
      ih ((List.range bs.length).foldl (gravInner G dt i) acc) (List.nodup_cons.1 hnd).2
        (fun i2 h2 => hmem i2 (List.mem_cons_of_mem i h2)) hlen1 hpos1 hmass1
    have hsum : (getBody ((List.range bs.length).foldl (gravInner G dt i) acc) i).velocity
        = (getBody acc i).velocity + kickSum G dt bs i := by
      rw [avel]
      unfold kickSum
      congr 1
      congr 1
      apply List.map_congr_left
      intro j _
      by_cases hij : i = j
      · rw [if_pos hij, if_pos hij]
      · rw [if_neg hij, if_neg hij, hpos i, hmass i, hpos j, hmass j]
    refine ⟨?_, ?_, ?_, ?_, ?_⟩
    · rw [List.foldl_cons, blen]
    · intro k
      rw [List.foldl_cons, bpos k]
    · intro k
      rw [List.foldl_cons, bmass k]
    · intro k hk
      rw [List.foldl_cons,
        both k (fun h2 => hk (List.mem_cons_of_mem i h2)),
        aoth k (fun h2 => hk (h2 ▸ List.mem_cons_self i is))]
    · intro i2 h2
      rcases List.mem_cons.1 h2 with h2 | h2
      · subst h2
        have hnotin : i2 ∉ is := (List.nodup_cons.1 hnd).1
        rw [List.foldl_cons, both i2 hnotin, hsum]
      · have hne : i2 ≠ i := fun hcon => (List.nodup_cons.1 hnd).1 (hcon ▸ h2)
        rw [List.foldl_cons, bvel i2 h2, aoth i2 hne]

lemma posInner_length (dt : ℝ) (acc : List CBody) (i : ℕ) :
    (posInner dt acc i).length = acc.length := by
  unfold posInner
  simp

lemma posInner_other (dt : ℝ) (acc : List CBody) (i k : ℕ) (hk : k ≠ i) :
    getBody (posInner dt acc i) k = getBody acc k := by
  unfold posInner
  exact getBody_set_ne _ (fun h2 => hk h2.symm)

lemma posInner_self (dt : ℝ) (acc : List CBody) (i : ℕ) (hi : i < acc.length) :
    getBody (posInner dt acc i) i
      = (getBody acc i).withPosition
          ((getBody acc i).position + dt • (getBody acc i).velocity) := by
  unfold posInner
  exact getBody_set_self _ hi

lemma posFold (dt : ℝ) :
    ∀ (is : List ℕ) (acc : List CBody), is.Nodup →
      (is.foldl (posInner dt) acc).length = acc.length ∧
      (∀ k, k ∉ is → getBody (is.foldl (posInner dt) acc) k = getBody acc k) ∧
      (∀ i ∈ is, i < acc.length → getBody (is.foldl (posInner dt) acc) i
        = (getBody acc i).withPosition
            ((getBody acc i).position + dt • (getBody acc i).velocity)) := by
  intro is
  induction is with
  | nil =>
    intro acc _
    exact ⟨rfl, fun _ _ => rfl, fun _ hmem => absurd hmem (List.not_mem_nil _)⟩
  | cons i is ih =>
    intro acc hnd
    obtain ⟨blen, both, bself⟩ := ih (posInner dt acc i) (List.nodup_cons.1 hnd).2
    refine ⟨?_, ?_, ?_⟩
    · rw [List.foldl_cons, blen, posInner_length]
    · intro k hk
      rw [List.foldl_cons,
        both k (fun h2 => hk (List.mem_cons_of_mem i h2)),
        posInner_other dt acc i k (fun h2 => hk (h2 ▸ List.mem_cons_self i is))]
    · intro i2 h2 hlt
      rcases List.mem_cons.1 h2 with h2 | h2
      · subst h2
        have hnotin : i2 ∉ is := (List.nodup_cons.1 hnd).1
        rw [List.foldl_cons, both i2 hnotin, posInner_self dt acc i2 hlt]
      · have hne : i2 ≠ i := fun hcon => (List.nodup_cons.1 hnd).1 (hcon ▸ h2)
        rw [List.foldl_cons,
          bself i2 h2 (by rw [posInner_length]; exact hlt),
          posInner_other dt acc i i2 hne]

/-- C1: over one fixed physics step, the velocity phase leaves every
position unchanged and gives body i exactly its old velocity plus the sum,
over all j different from i, of normalize(p_j - p_i) scaled by
G m_i m_j / (|p_j - p_i|^2 + eps) / m_i times the step, where every kick is
computed from the same pre-step position snapshot; only afterwards does the
position phase move every body by its updated velocity times the step. -/
theorem c1_physics_step (G dt : ℝ) (bs : List CBody) (i : ℕ) (h : i < bs.length) :
    (physicsStepOnce G dt bs).length = bs.length ∧
    (getBody (velocityPhase G dt bs) i).position = (getBody bs i).position ∧
    (getBody (velocityPhase G dt bs) i).velocity
      = (getBody bs i).velocity + kickSum G dt bs i ∧
    (getBody (physicsStepOnce G dt bs) i).velocity
      = (getBody bs i).velocity + kickSum G dt bs i ∧
    (getBody (physicsStepOnce G dt bs) i).position
      = (getBody bs i).position + dt • ((getBody bs i).velocity + kickSum G dt bs i) := by
  obtain ⟨vlen, vpos, vmass, _, vvel⟩ :=
    gravOuter_fold G dt bs (List.range bs.length) bs (List.nodup_range _)
      (fun j hj => List.mem_range.1 hj) rfl (fun _ => rfl) (fun _ => rfl)
  have hv : velocityPhase G dt bs
      = (List.range bs.length).foldl
          (fun a i2 => (List.range bs.length).foldl (gravInner G dt i2) a) bs := rfl
  have hvlen : (velocityPhase G dt bs).length = bs.length := by rw [hv]; exact vlen
  obtain ⟨plen, _, pself⟩ :=
    posFold dt (List.range (velocityPhase G dt bs).length) (velocityPhase G dt bs)
      (List.nodup_range _)
  have hp : physicsStepOnce G dt bs
      = (List.range (velocityPhase G dt bs).length).foldl (posInner dt)
          (velocityPhase G dt bs) := rfl
  have hi2 : i < (velocityPhase G dt bs).length := by rw [hvlen]; exact h
  have hpi : getBody (physicsStepOnce G dt bs) i
      = (getBody (velocityPhase G dt bs) i).withPosition
          ((getBody (velocityPhase G dt bs) i).position
            + dt • (getBody (velocityPhase G dt bs) i).velocity) := by
    rw [hp]
    exact pself i (List.mem_range.2 hi2) hi2
  have hvposi : (getBody (velocityPhase G dt bs) i).position = (getBody bs i).position := by
    rw [hv]; exact vpos i
  have hvveli : (getBody (velocityPhase G dt bs) i).velocity
      = (getBody bs i).velocity + kickSum G dt bs i := by
    rw [hv]
    rw [vvel i (List.mem_range.2 h)]
  refine ⟨?_, hvposi, hvveli, ?_, ?_⟩
  · rw [hp, (posFold dt (List.range (velocityPhase G dt bs).length)
      (velocityPhase G dt bs) (List.nodup_range _)).1, hvlen]
  · rw [hpi, CBody.velocity_withPosition, hvveli]
  · rw [hpi, CBody.position_withPosition, hvposi, hvveli]

/-- Witness for C1 at a concrete two-body registry. -/
theorem c1_physics_step_witness :
    (physicsStepOnce 6 physics_step [sampleAnchor, sampleChild]).length
        = [sampleAnchor, sampleChild].length ∧
    (getBody (velocityPhase 6 physics_step [sampleAnchor, sampleChild]) 0).position
        = (getBody [sampleAnchor, sampleChild] 0).position ∧
    (getBody (velocityPhase 6 physics_step [sampleAnchor, sampleChild]) 0).velocity
        = (getBody [sampleAnchor, sampleChild] 0).velocity
          + kickSum 6 physics_step [sampleAnchor, sampleChild] 0 ∧
    (getBody (physicsStepOnce 6 physics_step [sampleAnchor, sampleChild]) 0).velocity
        = (getBody [sampleAnchor, sampleChild] 0).velocity
          + kickSum 6 physics_step [sampleAnchor, sampleChild] 0 ∧
    (getBody (physicsStepOnce 6 physics_step [sampleAnchor, sampleChild]) 0).position
        = (getBody [sampleAnchor, sampleChild] 0).position
          + physics_step • ((getBody [sampleAnchor, sampleChild] 0).velocity
            + kickSum 6 physics_step [sampleAnchor, sampleChild] 0) :=
  c1_physics_step 6 physics_step [sampleAnchor, sampleChild] 0 (by norm_num)

/-! ### C4: anchor chains deeper than one level -/

lemma renderPositionRecursive_none {c : CBody} (h : c.anchor = none) :
    renderPositionRecursive c = c.minified_dist_scale • c.position := by
  cases c with
  | mk p v m s col pt ds ss an =>
    simp only [CBody.anchor] at h
    subst h
    rfl

lemma renderPositionRecursive_some {c a : CBody} (h : c.anchor = some a) :
    renderPositionRecursive c
      = renderPositionRecursive a + c.minified_dist_scale • (c.position - a.position) := by
  cases c with
  | mk p v m s col pt ds ss an =>
    simp only [CBody.anchor] at h
    subst h
    rfl

/-- C4 counterexample: in the depth-two chain cMoon -> cEarth -> cSun the
coordinate origin the code uses for cMoon is cEarth.position times the
cEarth distance scale, not the fully recursed render position of cEarth, so
the one-level composition of the code and the recursive composition the
claim asserts disagree (the code gives (35,0,0), the recursion (27,0,0)). -/
theorem c4_counterexample :
    renderedPosition RENDER_MINIFIED cMoon ≠ renderPositionRecursive cMoon := by
  have hcode : renderedPosition RENDER_MINIFIED cMoon = ((35 : ℝ), (0 : ℝ), (0 : ℝ)) := by
    simp only [renderedPosition, cMoon, cEarth, CBody.anchor, CBody.position,
      CBody.minified_dist_scale]
    rw [Prod.mk_sub_mk, Prod.mk_sub_mk, Prod.smul_mk, Prod.smul_mk, Prod.mk_add_mk]
    norm_num
  have hrec : renderPositionRecursive cMoon = ((27 : ℝ), (0 : ℝ), (0 : ℝ)) := by
    rw [renderPositionRecursive_some (c := cMoon) (a := cEarth) rfl,
      renderPositionRecursive_some (c := cEarth) (a := cSun) rfl,
      renderPositionRecursive_none (c := cSun) rfl]
    simp only [cMoon, cEarth, cSun, CBody.position, CBody.minified_dist_scale]
    rw [Prod.mk_sub_mk, Prod.mk_sub_mk, Prod.smul_mk, Prod.smul_mk, Prod.smul_mk,
      Prod.mk_add_mk, Prod.mk_add_mk]
    norm_num
  rw [hcode, hrec]
  intro hcon
  rw [Prod.mk.injEq] at hcon
  norm_num at hcon

/-- C4 amended: the minified render position composes exactly one level of
anchoring, using anchor.position scaled by the anchor distance scale as the
origin even when the anchor has its own anchor; it coincides with the fully
recursive composition exactly when the anchor chain below the body has depth
at most one (no anchor, or an anchor that itself has none). -/
theorem c4_anchor_one_level (c a : CBody) :
    (c.anchor = some a →
      renderedPosition RENDER_MINIFIED c
        = a.minified_dist_scale • a.position
          + c.minified_dist_scale • (c.position - a.position)) ∧
    (c.anchor = none →
      renderedPosition RENDER_MINIFIED c = renderPositionRecursive c) ∧
    (c.anchor = some a → a.anchor = none →
      renderedPosition RENDER_MINIFIED c = renderPositionRecursive c) := by
  refine ⟨fun h => by simp [renderedPosition, h], fun h => ?_, fun h ha => ?_⟩
  · rw [renderPositionRecursive_none h]
    simp [renderedPosition, h]
  · rw [renderPositionRecursive_some h, renderPositionRecursive_none ha]
    simp [renderedPosition, h]

/-- Witness for C4 at the concrete pair sampleChild -> sampleAnchor. -/
theorem c4_anchor_one_level_witness :
    renderedPosition RENDER_MINIFIED sampleChild = renderPositionRecursive sampleChild :=
  (c4_anchor_one_level sampleChild sampleAnchor).2.2 rfl rfl

/-! ### C5: first-sample trail seeding -/

lemma bufferInsert_lines (lp : LinePath) (l : Line) :
    (bufferInsert lp l).lines
      = Function.update lp.lines
          ((lp.path_start + lp.num_segments) % MAX_LINE_PATH_SEGMENTS) l := by
  simp only [bufferInsert]
  split <;> rfl

lemma update_line_path_seed (lp : LinePath) (gs : GlobalState) (pos : Vec3)
    (h : lp.num_segments = 0) :
    (update_line_path lp gs pos).lines (seedIndex lp)
      = ⟨(-(pathWidth gs / 2), 0, 0), (pathWidth gs / 2, 0, 0)⟩ := by
  have hCval : MAX_LINE_PATH_SEGMENTS = 1000 := rfl
  have hne : seedIndex lp ≠ (lp.path_start + lp.num_segments) % MAX_LINE_PATH_SEGMENTS := by
    have hlt : (lp.path_start + lp.num_segments) % MAX_LINE_PATH_SEGMENTS
        < MAX_LINE_PATH_SEGMENTS := Nat.mod_lt _ (by omega)
    simp only [seedIndex]
    split
    · omega
    · omega
  simp only [update_line_path]
  rw [if_pos h]
  split
  · show (append_to_line_path _ _ _ _ _).lines (seedIndex lp) = _
    unfold append_to_line_path
    rw [bufferInsert_lines]
    show Function.update
        (Function.update lp.lines (seedIndex lp)
          ⟨(-(pathWidth gs / 2), 0, 0), (pathWidth gs / 2, 0, 0)⟩)
        ((lp.path_start + lp.num_segments) % MAX_LINE_PATH_SEGMENTS) _ (seedIndex lp) = _
    rw [Function.update_noteq hne, Function.update_same]
  · exact Function.update_same _ _ _

/-- Sample global state for the trail lemmas: free camera 500 units from the
origin, so the derived trail width is 1. -/
noncomputable def gsSeed : GlobalState :=
  ⟨RENDER_MINIFIED, [], -1, (500, 0, 0), 25, 10, false, false⟩

lemma pathWidth_gsSeed : pathWidth gsSeed = 1 := by
  show vlen (((500 : ℝ), (0 : ℝ), (0 : ℝ)) - ((0 : ℝ), (0 : ℝ), (0 : ℝ))) / LINE_WIDTH = 1
  rw [Prod.mk_sub_mk, Prod.mk_sub_mk]
  unfold vlen LINE_WIDTH
  norm_num
  rw [show (250000 : ℝ) = 500 ^ 2 by norm_num, Real.sqrt_sq (by norm_num : (0 : ℝ) ≤ 500)]
  norm_num

/-- C5 corrected: the segment seeded on the first record call is the fixed
pair ((-w/2, 0, 0), (w/2, 0, 0)) of width w centred at the world origin,
independent of the render position the call was given, so it is neither
zero-length nor centred at the render position. -/
theorem c5_counterexample :
    ((update_line_path create_line_path gsSeed ((3 : ℝ), (0 : ℝ), (0 : ℝ))).lines
        (seedIndex create_line_path)).p0
      ≠ ((update_line_path create_line_path gsSeed ((3 : ℝ), (0 : ℝ), (0 : ℝ))).lines
        (seedIndex create_line_path)).p1 ∧
    ((1 : ℝ) / 2) •
        (((update_line_path create_line_path gsSeed ((3 : ℝ), (0 : ℝ), (0 : ℝ))).lines
            (seedIndex create_line_path)).p0
          + ((update_line_path create_line_path gsSeed ((3 : ℝ), (0 : ℝ), (0 : ℝ))).lines
            (seedIndex create_line_path)).p1)
      ≠ ((3 : ℝ), (0 : ℝ), (0 : ℝ)) := by
  have hseed := update_line_path_seed create_line_path gsSeed
    ((3 : ℝ), (0 : ℝ), (0 : ℝ)) rfl
  rw [pathWidth_gsSeed] at hseed
  rw [hseed]
  constructor
  · intro hcon
    rw [Prod.mk.injEq] at hcon
    norm_num at hcon
  · rw [Prod.mk_add_mk, Prod.smul_mk]
    intro hcon
    rw [Prod.mk.injEq] at hcon
    norm_num at hcon

/-- C5 amended: on a record call with count zero, the recorder seeds the
slot before the insertion point with the segment ((-w/2,0,0), (w/2,0,0)) -
a width-w segment along the x axis centred at the world origin, not at the
current render position - where w is the camera distance divided by
LINE_WIDTH. -/
theorem c5_first_sample_seed (lp : LinePath) (gs : GlobalState) (pos : Vec3)
    (h : lp.num_segments = 0) :
    (update_line_path lp gs pos).lines (seedIndex lp)
      = ⟨(-(pathWidth gs / 2), 0, 0), (pathWidth gs / 2, 0, 0)⟩ :=
  update_line_path_seed lp gs pos h

/-- Witness for C5 on a fresh trail. -/
theorem c5_first_sample_seed_witness :
    (update_line_path create_line_path gsSeed ((0 : ℝ), (0 : ℝ), (7 : ℝ))).lines
        (seedIndex create_line_path)
      = ⟨(-(pathWidth gsSeed / 2), 0, 0), (pathWidth gsSeed / 2, 0, 0)⟩ :=
  c5_first_sample_seed create_line_path gsSeed ((0 : ℝ), (0 : ℝ), (7 : ℝ)) rfl

/-! ### C8: distance decimation -/

lemma v3_sub (a b c d e f : ℝ) : ((a, b, c) : Vec3) - (d, e, f) = (a - d, b - e, c - f) := by
  rw [Prod.mk_sub_mk, Prod.mk_sub_mk]

lemma v3_add (a b c d e f : ℝ) : ((a, b, c) : Vec3) + (d, e, f) = (a + d, b + e, c + f) := by
  rw [Prod.mk_add_mk, Prod.mk_add_mk]

lemma v3_smul (r a b c : ℝ) : r • ((a, b, c) : Vec3) = (r * a, r * b, r * c) := by
  rw [Prod.smul_mk, Prod.smul_mk, smul_eq_mul, smul_eq_mul, smul_eq_mul]

lemma update_line_path_noop (lp : LinePath) (gs : GlobalState) (pos : Vec3)
    (h : ¬ lp.num_segments = 0)
    (hd : ¬ (pathWidth gs * 2 < |vlen (pos - (lp.lines (seedIndex lp)).p0)|)) :
    update_line_path lp gs pos = lp := by
  simp only [update_line_path]
  rw [if_neg h, if_neg hd]

lemma update_line_path_append (lp : LinePath) (gs : GlobalState) (pos : Vec3)
    (h : ¬ lp.num_segments = 0)
    (hd : pathWidth gs * 2 < |vlen (pos - (lp.lines (seedIndex lp)).p0)|) :
    update_line_path lp gs pos
      = append_to_line_path lp pos (lp.lines (seedIndex lp)).p0
          (lp.lines (seedIndex lp)).p1 (pathWidth gs) := by
  simp only [update_line_path]
  rw [if_neg h, if_pos hd]

lemma update_line_path_seed_append (lp : LinePath) (gs : GlobalState) (pos : Vec3)
    (h : lp.num_segments = 0)
    (hd : pathWidth gs * 2 < |vlen (pos -
      (Function.update lp.lines (seedIndex lp)
        ⟨(-(pathWidth gs / 2), 0, 0), (pathWidth gs / 2, 0, 0)⟩ (seedIndex lp)).p0)|) :
    update_line_path lp gs pos
      = append_to_line_path
          ⟨Function.update lp.lines (seedIndex lp)
            ⟨(-(pathWidth gs / 2), 0, 0), (pathWidth gs / 2, 0, 0)⟩,
            lp.path_start, lp.num_segments⟩
          pos
          (Function.update lp.lines (seedIndex lp)
            ⟨(-(pathWidth gs / 2), 0, 0), (pathWidth gs / 2, 0, 0)⟩ (seedIndex lp)).p0
          (Function.update lp.lines (seedIndex lp)
            ⟨(-(pathWidth gs / 2), 0, 0), (pathWidth gs / 2, 0, 0)⟩ (seedIndex lp)).p1
          (pathWidth gs) := by
  simp only [update_line_path]
  rw [if_pos h]
  show (if pathWidth gs * 2 < |vlen (pos -
      (Function.update lp.lines (seedIndex lp)
        ⟨(-(pathWidth gs / 2), 0, 0), (pathWidth gs / 2, 0, 0)⟩ (seedIndex lp)).p0)| then _
    else _) = _
  rw [if_pos hd]

/-- The first ribbon segment appended in the concrete two-call scenario. -/
noncomputable def lineL1 : Line := ⟨(-(1 / 2 : ℝ), 0, 10), ((1 / 2 : ℝ), 0, 10)⟩

/-- The buffer contents after the first concrete record call: the seed in
slot 999 and the first appended segment in slot 0. -/
noncomputable def lines1 : ℕ → Line :=
  Function.update
    (Function.update (fun _ => zeroLine) 999 ⟨(-(1 / 2 : ℝ), 0, 0), ((1 / 2 : ℝ), 0, 0)⟩)
    0 lineL1

lemma vnormalize_z10 : vnormalize ((0 : ℝ), (0 : ℝ), (10 : ℝ)) = (0, 0, 1) := by
  have hlen : vlen ((0 : ℝ), (0 : ℝ), (10 : ℝ)) = 10 := by
    unfold vlen
    norm_num
    rw [show (100 : ℝ) = 10 ^ 2 by norm_num, Real.sqrt_sq (by norm_num : (0 : ℝ) ≤ 10)]
  unfold vnormalize
  rw [hlen, v3_smul]
  norm_num

lemma appendedLine_first :
    appendedLine ((0 : ℝ), (0 : ℝ), (10 : ℝ)) (-(1 / 2 : ℝ), 0, 0) ((1 / 2 : ℝ), 0, 0) 1
      = lineL1 := by
  simp only [appendedLine]
  rw [show ((1 : ℝ) / 2) • ((-(1 / 2 : ℝ), (0 : ℝ), (0 : ℝ)) - ((1 / 2 : ℝ), (0 : ℝ), (0 : ℝ)))
        + ((1 / 2 : ℝ), (0 : ℝ), (0 : ℝ)) = ((0 : ℝ), (0 : ℝ), (0 : ℝ)) from by
      rw [v3_sub, v3_smul, v3_add]; norm_num]
  rw [show ((0 : ℝ), (0 : ℝ), (10 : ℝ)) - ((0 : ℝ), (0 : ℝ), (0 : ℝ))
      = ((0 : ℝ), (0 : ℝ), (10 : ℝ)) from by rw [v3_sub]; norm_num]
  rw [vnormalize_z10]
  rw [show vcross ((0 : ℝ), (0 : ℝ), (1 : ℝ)) ((0 : ℝ), (1 : ℝ), (0 : ℝ))
      = ((-1 : ℝ), (0 : ℝ), (0 : ℝ)) from by unfold vcross; norm_num]
  unfold lineL1
  rw [Line.mk.injEq]
  constructor
  · rw [v3_smul, v3_add]
    norm_num
  · rw [v3_smul, v3_sub]
    norm_num

lemma first_call_eval :
    update_line_path create_line_path gsSeed ((0 : ℝ), (0 : ℝ), (10 : ℝ))
      = ⟨lines1, 0, 1⟩ := by
  have hd1 : pathWidth gsSeed * 2 < |vlen (((0 : ℝ), (0 : ℝ), (10 : ℝ)) -
      (Function.update create_line_path.lines (seedIndex create_line_path)
        ⟨(-(pathWidth gsSeed / 2), 0, 0), (pathWidth gsSeed / 2, 0, 0)⟩
        (seedIndex create_line_path)).p0)| := by
    rw [pathWidth_gsSeed, Function.update_same]
    show (1 : ℝ) * 2 < |vlen (((0 : ℝ), (0 : ℝ), (10 : ℝ)) - (-(1 / 2 : ℝ), (0 : ℝ), (0 : ℝ)))|
    rw [v3_sub]
    unfold vlen
    rw [show ((0 : ℝ) - -(1 / 2)) * ((0 : ℝ) - -(1 / 2)) + ((0 : ℝ) - 0) * ((0 : ℝ) - 0)
        + ((10 : ℝ) - 0) * ((10 : ℝ) - 0) = 401 / 4 from by norm_num]
    rw [abs_of_nonneg (Real.sqrt_nonneg _), show (1 : ℝ) * 2 = 2 from by norm_num]
    exact (Real.lt_sqrt (by norm_num)).2 (by norm_num)
  rw [update_line_path_seed_append create_line_path gsSeed ((0 : ℝ), (0 : ℝ), (10 : ℝ)) rfl hd1]
  rw [pathWidth_gsSeed, Function.update_same]
  show append_to_line_path
      ⟨Function.update create_line_path.lines (seedIndex create_line_path)
        ⟨(-(1 / 2 : ℝ), 0, 0), ((1 / 2 : ℝ), 0, 0)⟩, 0, 0⟩
      ((0 : ℝ), (0 : ℝ), (10 : ℝ)) (-(1 / 2 : ℝ), 0, 0) ((1 / 2 : ℝ), 0, 0) 1 = ⟨lines1, 0, 1⟩
  unfold append_to_line_path
  rw [appendedLine_first]
  rw [bufferInsert_notfull lineL1 rfl (by norm_num [MAX_LINE_PATH_SEGMENTS])]
  rfl

lemma second_call_num :
    (update_line_path (⟨lines1, 0, 1⟩ : LinePath) gsSeed
      ((19 : ℝ) / 10, (0 : ℝ), (10 : ℝ))).num_segments = 2 := by
  have hd2 : pathWidth gsSeed * 2 < |vlen ((((19 : ℝ) / 10, (0 : ℝ), (10 : ℝ))) -
      ((⟨lines1, 0, 1⟩ : LinePath).lines (seedIndex (⟨lines1, 0, 1⟩ : LinePath))).p0)| := by
    rw [pathWidth_gsSeed]
    show (1 : ℝ) * 2 < |vlen ((((19 : ℝ) / 10, (0 : ℝ), (10 : ℝ)))
      - (-(1 / 2 : ℝ), (0 : ℝ), (10 : ℝ)))|
    rw [v3_sub]
    unfold vlen
    rw [show ((19 : ℝ) / 10 - -(1 / 2)) * ((19 : ℝ) / 10 - -(1 / 2))
        + ((0 : ℝ) - 0) * ((0 : ℝ) - 0) + ((10 : ℝ) - 10) * ((10 : ℝ) - 10)
        = 144 / 25 from by norm_num]
    rw [abs_of_nonneg (Real.sqrt_nonneg _), show (1 : ℝ) * 2 = 2 from by norm_num]
    exact (Real.lt_sqrt (by norm_num)).2 (by norm_num)
  rw [update_line_path_append (⟨lines1, 0, 1⟩ : LinePath) gsSeed
    ((19 : ℝ) / 10, (0 : ℝ), (10 : ℝ)) (by norm_num) hd2]
  unfold append_to_line_path
  rw [bufferInsert_notfull _ rfl (by norm_num [MAX_LINE_PATH_SEGMENTS])]

/-- C8 counterexample: two consecutive record calls whose render positions
are 1.9 apart with width 1 (so closer than 2w), yet the second call appends
and the count grows from 1 to 2, because the code decimates against the
first stored endpoint of the previous segment (offset by w/2 from the
previous render position), not against the previous render position. -/
theorem c8_counterexample :
    (update_line_path create_line_path gsSeed ((0 : ℝ), (0 : ℝ), (10 : ℝ))).num_segments = 1 ∧
    vlen ((((19 : ℝ) / 10, (0 : ℝ), (10 : ℝ))) - ((0 : ℝ), (0 : ℝ), (10 : ℝ)))
      < 2 * pathWidth gsSeed ∧
    (update_line_path (update_line_path create_line_path gsSeed ((0 : ℝ), (0 : ℝ), (10 : ℝ)))
        gsSeed ((19 : ℝ) / 10, (0 : ℝ), (10 : ℝ))).num_segments = 2 := by
  refine ⟨by rw [first_call_eval], ?_, ?_⟩
  · rw [pathWidth_gsSeed, v3_sub]
    unfold vlen
    rw [show ((19 : ℝ) / 10 - 0) * ((19 : ℝ) / 10 - 0) + ((0 : ℝ) - 0) * ((0 : ℝ) - 0)
        + ((10 : ℝ) - 10) * ((10 : ℝ) - 10) = (19 / 10) ^ 2 from by norm_num]
    rw [Real.sqrt_sq (by norm_num : (0 : ℝ) ≤ 19 / 10)]
    norm_num
  · rw [first_call_eval]
    exact second_call_num

/-- C8 amended: a record call on a non-empty trail whose render position is
within twice the width of the first stored endpoint of the most recent
segment (which sits within w/2 of the previous render position) leaves the
trail - buffer contents, start and count - entirely unchanged. -/
theorem c8_decimation_noop (lp : LinePath) (gs : GlobalState) (pos : Vec3)
    (h : ¬ lp.num_segments = 0)
    (hd : |vlen (pos - (lp.lines (seedIndex lp)).p0)| ≤ pathWidth gs * 2) :
    update_line_path lp gs pos = lp :=
  update_line_path_noop lp gs pos h (not_lt.2 hd)

/-- Sample one-segment trail used by the C8 witness. -/
noncomputable def lpOneW : LinePath := ⟨fun _ => zeroLine, 0, 1⟩

/-- Witness for C8: a sub-threshold record call on a one-segment trail is a
no-op. -/
theorem c8_decimation_noop_witness :
    |vlen ((((0 : ℝ), (0 : ℝ), (0 : ℝ))) - (lpOneW.lines (seedIndex lpOneW)).p0)|
        ≤ pathWidth gsSeed * 2 ∧
    update_line_path lpOneW gsSeed ((0 : ℝ), (0 : ℝ), (0 : ℝ)) = lpOneW := by
  have hd : |vlen ((((0 : ℝ), (0 : ℝ), (0 : ℝ))) - (lpOneW.lines (seedIndex lpOneW)).p0)|
      ≤ pathWidth gsSeed * 2 := by
    rw [pathWidth_gsSeed]
    show |vlen ((((0 : ℝ), (0 : ℝ), (0 : ℝ))) - ((0 : ℝ), (0 : ℝ), (0 : ℝ)))| ≤ 1 * 2
    rw [v3_sub]
    unfold vlen
    rw [show ((0 : ℝ) - 0) * ((0 : ℝ) - 0) + ((0 : ℝ) - 0) * ((0 : ℝ) - 0)
        + ((0 : ℝ) - 0) * ((0 : ℝ) - 0) = 0 from by norm_num]
    rw [Real.sqrt_zero]
    norm_num
  exact ⟨hd, c8_decimation_noop lpOneW gsSeed ((0 : ℝ), (0 : ℝ), (0 : ℝ))
    (by norm_num [lpOneW]) hd⟩

/-! ### C6: focused camera position and zoom distance -/

lemma vnormalize_z1 : vnormalize ((0 : ℝ), (0 : ℝ), (1 : ℝ)) = (0, 0, 1) := by
  unfold vnormalize
  rw [show vlen ((0 : ℝ), (0 : ℝ), (1 : ℝ)) = 1 from by
    unfold vlen; norm_num]
  rw [v3_smul]
  norm_num

lemma zoom_distance_eval :
    (2 : ℝ) ^ (Real.logb 2 MIN_ZOOM
      + (Real.logb 2 ((25 / 7 : ℝ) * 3.5) - Real.logb 2 MIN_ZOOM) * (10 : ℝ)
        / (NUM_ZOOM_LEVELS : ℝ)) = 100 := by
  have h1 : ((25 : ℝ) / 7) * 3.5 = 25 / 2 := by norm_num
  have h2 : (NUM_ZOOM_LEVELS : ℝ) = 20 := by norm_num [NUM_ZOOM_LEVELS]
  rw [h1, h2]
  rw [show Real.logb 2 MIN_ZOOM
      + (Real.logb 2 (25 / 2) - Real.logb 2 MIN_ZOOM) * (10 : ℝ) / 20
      = (Real.logb 2 MIN_ZOOM + Real.logb 2 (25 / 2)) * (1 / 2) from by ring]
  rw [← Real.logb_mul (by norm_num [MIN_ZOOM]) (by norm_num)]
  rw [show (MIN_ZOOM : ℝ) * (25 / 2) = 10000 from by norm_num [MIN_ZOOM]]
  rw [Real.rpow_mul (by norm_num : (0 : ℝ) ≤ 2)]
  rw [Real.rpow_logb (by norm_num) (by norm_num) (by norm_num)]
  rw [show (10000 : ℝ) = 100 ^ (2 : ℕ) from by norm_num]
  rw [← Real.rpow_natCast (100 : ℝ) 2, ← Real.rpow_mul (by norm_num : (0 : ℝ) ≤ 100)]
  norm_num

/-- C6 amended: with a focused target the camera position is the target
position (equal to its render position in to-scale mode, the only mode in
which a target can be selected), pushed out along the normalized target
velocity by (size + focused_camera_distance) and lifted vertically by half
the focused distance; the focused distance equals the logarithmic ramp
2 ^ (minZoom + (maxZoom - minZoom) * zoomLevel / NUM_ZOOM_LEVELS) right
after a zoom scroll event with that target selected, but merely persists
(is not recomputed) across target cycling and mode toggling. -/
theorem c6_focused_camera (gs : GlobalState) (y : ℝ) :
    (gs.camera_target ≠ -1 → gs.rendering_mode = RENDER_TO_SCALE →
      (cameraUpdate gs).camera_pos
        = renderedPosition gs.rendering_mode
            (getBody gs.celestial_bodies gs.camera_target.toNat)
          + ((getBody gs.celestial_bodies gs.camera_target.toNat).size
              + gs.focused_camera_distance)
            • vnormalize (getBody gs.celestial_bodies gs.camera_target.toNat).velocity
          + (0, gs.focused_camera_distance / 2, 0)) ∧
    (gs.camera_target ≠ -1 → gs.rendering_mode ≠ RENDER_MINIFIED →
      (scroll_callback gs y).focused_camera_distance
        = (2 : ℝ) ^ (Real.logb 2 MIN_ZOOM
            + (Real.logb 2 ((getBody gs.celestial_bodies gs.camera_target.toNat).size * 3.5)
                - Real.logb 2 MIN_ZOOM)
              * ((scroll_callback gs y).zoom_level : ℝ) / (NUM_ZOOM_LEVELS : ℝ))) ∧
    (cycleTargetStep gs).focused_camera_distance = gs.focused_camera_distance ∧
    (toggleModeStep gs).focused_camera_distance = gs.focused_camera_distance := by
  refine ⟨fun ht hm => ?_, fun ht hm => ?_, ?_, ?_⟩
  · simp only [cameraUpdate]
    rw [if_neg ht, hm]
    dsimp only
    simp only [renderedPosition, one_smul]
    abel
  · have hcond : ¬(gs.camera_target = -1 ∨ gs.rendering_mode = RENDER_MINIFIED) := by tauto
    simp only [scroll_callback]
    rw [if_neg hcond]
  · by_cases hm2 : gs.rendering_mode = RENDER_TO_SCALE <;> simp [cycleTargetStep, hm2]
  · simp [toggleModeStep]

/-- Witness for C6 at a focused to-scale state. -/
theorem c6_focused_camera_witness :
    (cameraUpdate gsW).camera_pos
      = renderedPosition gsW.rendering_mode
          (getBody gsW.celestial_bodies gsW.camera_target.toNat)
        + ((getBody gsW.celestial_bodies gsW.camera_target.toNat).size
            + gsW.focused_camera_distance)
          • vnormalize (getBody gsW.celestial_bodies gsW.camera_target.toNat).velocity
        + (0, gsW.focused_camera_distance / 2, 0) :=
  (c6_focused_camera gsW 0).1 (by norm_num [gsW]) rfl

/-- Sample start state for the C6 counterexample, matching the initial
state of main: minified mode, free camera, focused distance 25, zoom 10. -/
noncomputable def gsC6init : GlobalState :=
  ⟨RENDER_MINIFIED, [bodyW], -1, (0, 0, 0), 25, 10, false, false⟩

/-- C6 counterexample: after toggling to to-scale mode and cycling the
target onto the single body - with no scroll event in between - the stored
focused camera distance is still the initial 25, not the logarithmic ramp
value 100 the spec formula gives for zoom level 10, so the derived camera
position disagrees with the spec camera position formula. -/
theorem c6_counterexample :
    (cameraUpdate (cycleTargetStep (toggleModeStep gsC6init))).camera_pos
      ≠ specCameraPos (cycleTargetStep (toggleModeStep gsC6init)) := by
  have hcam : (cameraUpdate (cycleTargetStep (toggleModeStep gsC6init))).camera_pos
      = ((0 : ℝ), 25 / 2, 25 / 7 + 25) := by
    have hstep : (cameraUpdate (cycleTargetStep (toggleModeStep gsC6init))).camera_pos
        = (((0 : ℝ), (0 : ℝ), (0 : ℝ))
            + ((25 / 7 : ℝ) + 25) • vnormalize ((0 : ℝ), (0 : ℝ), (1 : ℝ))
            - ((0 : ℝ), (0 : ℝ), (0 : ℝ)))
          + ((0 : ℝ), (0 : ℝ), (0 : ℝ)) + ((0 : ℝ), (25 : ℝ) / 2, (0 : ℝ)) := rfl
    rw [hstep, vnormalize_z1, v3_smul, v3_add, v3_sub, v3_add, v3_add]
    rw [Prod.mk.injEq, Prod.mk.injEq]
    norm_num
  have hspec : specCameraPos (cycleTargetStep (toggleModeStep gsC6init))
      = ((0 : ℝ), 50, 25 / 7 + 100) := by
    have hstep : specCameraPos (cycleTargetStep (toggleModeStep gsC6init))
        = renderedPosition RENDER_TO_SCALE (bodyW.resetPath.resetPath)
          + ((25 / 7 : ℝ)
              + (2 : ℝ) ^ (Real.logb 2 MIN_ZOOM
                + (Real.logb 2 ((25 / 7 : ℝ) * 3.5) - Real.logb 2 MIN_ZOOM)
                  * (((10 : ℤ) : ℝ)) / (NUM_ZOOM_LEVELS : ℝ)))
            • vnormalize ((0 : ℝ), (0 : ℝ), (1 : ℝ))
          + ((0 : ℝ),
              (2 : ℝ) ^ (Real.logb 2 MIN_ZOOM
                + (Real.logb 2 ((25 / 7 : ℝ) * 3.5) - Real.logb 2 MIN_ZOOM)
                  * (((10 : ℤ) : ℝ)) / (NUM_ZOOM_LEVELS : ℝ)) / 2, (0 : ℝ)) := rfl
    rw [hstep]
    rw [show (((10 : ℤ) : ℝ)) = (10 : ℝ) from by norm_num]
    rw [zoom_distance_eval]
    rw [show renderedPosition RENDER_TO_SCALE (bodyW.resetPath.resetPath)
        = ((0 : ℝ), (0 : ℝ), (0 : ℝ)) from by
      simp only [renderedPosition]
      rw [show (bodyW.resetPath.resetPath).position = ((0 : ℝ), (0 : ℝ), (0 : ℝ)) from rfl,
        one_smul]]
    rw [vnormalize_z1, v3_smul, v3_add, v3_add]
    rw [Prod.mk.injEq, Prod.mk.injEq]
    norm_num
  rw [hcam, hspec]
  intro hcon
  rw [Prod.mk.injEq, Prod.mk.injEq] at hcon
  norm_num at hcon
